import Mathlib

/-!
Verification development for the ScriptForgeAI workflow-execution route
(`src/app/api/scriptforge/workflows/execute/route.js`).

The JavaScript is shallowly embedded: JavaScript values are modelled by
`JSVal` over an explicit heap (`Store`) so that object identity and
self-referential structures are representable; fallible JavaScript
expressions (property access on nullish values, method calls on values
that lack the method, `JSON.stringify` on circular structures) return
`Except String`; the thrown message plays the role of `error.message`.
Persistence (`workflow.save()`) is modelled as the identity on the
in-memory document: every claim about "persisted" state reads the
resulting document.  Real-time fields (`lastRun`) and the auth/database
prologue of the route are outside the embedded fragment.
-/

namespace SF

/-- A JavaScript value: primitives plus a reference into the heap. -/
inductive JSVal where
  | undef : JSVal
  | null : JSVal
  | bool : Bool → JSVal
  | num : Int → JSVal
  | str : String → JSVal
  | ref : Nat → JSVal
deriving Repr, DecidableEq

/-- A heap object: a plain object (field list) or an array. -/
inductive HObj where
  | obj : List (String × JSVal) → HObj
  | arr : List JSVal → HObj
deriving Repr, DecidableEq

/-- The JavaScript heap: address `a` denotes `objs.get? a`. -/
abbrev Store := List HObj

/-- JavaScript truthiness. -/
def truthy : JSVal → Bool
  | JSVal.undef => false
  | JSVal.null => false
  | JSVal.bool b => b
  | JSVal.num n => n != 0
  | JSVal.str s => s != ""
  | JSVal.ref _ => true

/-- `null` or `undefined` (the receivers on which property access throws). -/
def nullish : JSVal → Bool
  | JSVal.undef => true
  | JSVal.null => true
  | _ => false

/-- Property lookup on a non-nullish receiver; total, yields `undefined`
for absent properties (our data model has no prototype chain). -/
def getOwn (σ : Store) (v : JSVal) (name : String) : JSVal :=
  match v with
  | JSVal.ref a =>
    match σ.get? a with
    | some (HObj.obj fs) =>
      match fs.lookup name with
      | some w => w
      | none => JSVal.undef
    | some (HObj.arr es) => if name = "length" then JSVal.num es.length else JSVal.undef
    | none => JSVal.undef
  | JSVal.str s => if name = "length" then JSVal.num s.length else JSVal.undef
  | _ => JSVal.undef

/-- `v.name`: throws a TypeError on nullish receivers, as in JavaScript. -/
def getProp (σ : Store) (v : JSVal) (name : String) : Except String JSVal :=
  if nullish v then Except.error ("TypeError: Cannot read properties of null (reading " ++ name ++ ")")
  else Except.ok (getOwn σ v name)

/-- `v?.name`: optional chaining short-circuits nullish receivers to `undefined`. -/
def getPropOpt (σ : Store) (v : JSVal) (name : String) : JSVal :=
  if nullish v then JSVal.undef else getOwn σ v name

/-- Join a list of already-stringified pieces, as `Array.prototype.join`. -/
def joinPieces (g : JSVal → String) (es : List JSVal) (sep : String) : String :=
  String.intercalate sep (es.map fun e =>
    match e with
    | JSVal.undef => ""
    | JSVal.null => ""
    | e => g e)

/-- `String(v)` / template-literal interpolation.  Fuel bounds the nesting
of arrays (engines cut off cyclic `join` recursion; exhaustion yields `""`,
which no claim depends on). -/
def jsToString (σ : Store) : Nat → JSVal → String
  | _, JSVal.undef => "undefined"
  | _, JSVal.null => "null"
  | _, JSVal.bool b => if b then "true" else "false"
  | _, JSVal.num n => toString n
  | _, JSVal.str s => s
  | 0, JSVal.ref _ => ""
  | fuel + 1, JSVal.ref a =>
    match σ.get? a with
    | some (HObj.obj _) => "[object Object]"
    | some (HObj.arr es) => joinPieces (fun e => jsToString σ fuel e) es ","
    | none => ""

/-- Default interpolation fuel: one level per heap object suffices for
any acyclic value. -/
def toStrFuel (σ : Store) : Nat := σ.length + 1

/-- Template interpolation of `v` with the default fuel. -/
def interp (σ : Store) (v : JSVal) : String := jsToString σ (toStrFuel σ) v

/-- Serialize a string literal for JSON output (escaping abstracted:
no claim inspects the rendered text of string payloads). -/
def jsonQuote (s : String) : String := "\"" ++ s ++ "\""

/-- Serialize the fields of an object; fields whose value serializes to
`undefined` are omitted, as in `JSON.stringify`. -/
def jsonFieldPieces (g : JSVal → Except String (Option String)) :
    List (String × JSVal) → Except String (List String)
  | [] => Except.ok []
  | (k, v) :: rest => do
    let sub ← g v
    let tail ← jsonFieldPieces g rest
    match sub with
    | some s => Except.ok ((jsonQuote k ++ ":" ++ s) :: tail)
    | none => Except.ok tail

/-- Serialize the elements of an array; `undefined` elements render as
`null`, as in `JSON.stringify`. -/
def jsonElemPieces (g : JSVal → Except String (Option String)) :
    List JSVal → Except String (List String)
  | [] => Except.ok []
  | v :: rest => do
    let sub ← g v
    let tail ← jsonElemPieces g rest
    Except.ok ((match sub with | some s => s | none => "null") :: tail)

/-- `JSON.stringify(v)` (the `null, 2` pretty-printing indentation of the
source is abstracted to compact output; no claim inspects the layout).
`stack` is the set of object addresses currently being serialized: revisiting
one is the circular-structure TypeError of the JavaScript specification.
Top-level-`undefined` inputs yield `none`, as `JSON.stringify` yields
`undefined` rather than a string. -/
def jsonStringify (σ : Store) : Nat → List Nat → JSVal → Except String (Option String)
  | _, _, JSVal.undef => Except.ok none
  | _, _, JSVal.null => Except.ok (some "null")
  | _, _, JSVal.bool b => Except.ok (some (if b then "true" else "false"))
  | _, _, JSVal.num n => Except.ok (some (toString n))
  | _, _, JSVal.str s => Except.ok (some (jsonQuote s))
  | 0, _, JSVal.ref _ => Except.error "RangeError: Maximum call stack size exceeded"
  | fuel + 1, stack, JSVal.ref a =>
    if a ∈ stack then Except.error "TypeError: Converting circular structure to JSON"
    else
      match σ.get? a with
      | some (HObj.obj fs) => do
        let parts ← jsonFieldPieces (fun v => jsonStringify σ fuel (a :: stack) v) fs
        Except.ok (some ("\x7b" ++ String.intercalate "," parts ++ "\x7d"))
      | some (HObj.arr es) => do
        let parts ← jsonElemPieces (fun v => jsonStringify σ fuel (a :: stack) v) es
        Except.ok (some ("[" ++ String.intercalate "," parts ++ "]"))
      | none => Except.ok none

/-- `x?.join(sep)`: `undefined` when `x` is nullish; joins when `x` is an
array; otherwise the TypeError of calling a missing `join`. -/
def optJoin (σ : Store) (v : JSVal) (sep : String) : Except String JSVal :=
  if nullish v then Except.ok JSVal.undef
  else
    match v with
    | JSVal.ref a =>
      match σ.get? a with
      | some (HObj.arr es) => Except.ok (JSVal.str (joinPieces (interp σ) es sep))
      | _ => Except.error "TypeError: join is not a function"
    | _ => Except.error "TypeError: join is not a function"

/-- `x?.length || 0` (total: `x` is already evaluated, optional chaining
shields nullish `x`, and `||` replaces falsy lengths with `0`). -/
def optLenOrZero (σ : Store) (v : JSVal) : JSVal :=
  let l := getPropOpt σ v "length"
  if truthy l then l else JSVal.num 0

/-- The `story-intelligence` case of `formatAgentOutput`. -/
def fmtStoryIntelligence (σ : Store) (result : JSVal) : Except String String := do
  let genre ← getProp σ result "genre"
  let themes ← getProp σ result "themes"
  let themesJ ← optJoin σ themes ", "
  let setting ← getProp σ result "setting"
  let mainConflict ← getProp σ result "mainConflict"
  Except.ok ("**Genre:** " ++ interp σ genre ++ "\n**Themes:** " ++ interp σ themesJ
    ++ "\n**Setting:** " ++ interp σ setting ++ "\n**Main Conflict:** " ++ interp σ mainConflict)

/-- The `knowledge-graph` case of `formatAgentOutput`. -/
def fmtKnowledgeGraph (σ : Store) (result : JSVal) : Except String String := do
  let cs ← getProp σ result "characters"
  let ls ← getProp σ result "locations"
  let es ← getProp σ result "events"
  let rs ← getProp σ result "relationships"
  let ps ← getProp σ result "plotThreads"
  Except.ok ("**Characters:** " ++ interp σ (optLenOrZero σ cs)
    ++ "\n**Locations:** " ++ interp σ (optLenOrZero σ ls)
    ++ "\n**Events:** " ++ interp σ (optLenOrZero σ es)
    ++ "\n**Relationships:** " ++ interp σ (optLenOrZero σ rs)
    ++ "\n**Plot Threads:** " ++ interp σ (optLenOrZero σ ps))

/-- The `temporal-reasoning` case of `formatAgentOutput`. -/
def fmtTemporalReasoning (σ : Store) (result : JSVal) : Except String String := do
  let ce ← getProp σ result "chronologicalEvents"
  let fb ← getProp σ result "flashbacks"
  let cc ← getProp σ result "causalChains"
  let ti ← getProp σ result "temporalIssues"
  Except.ok ("**Timeline Events:** " ++ interp σ (optLenOrZero σ ce)
    ++ "\n**Flashbacks:** " ++ interp σ (optLenOrZero σ fb)
    ++ "\n**Causal Chains:** " ++ interp σ (optLenOrZero σ cc)
    ++ "\n**Issues Found:** " ++ interp σ (optLenOrZero σ ti))

/-- The `continuity-validator` case of `formatAgentOutput`. -/
def fmtContinuityValidator (σ : Store) (result : JSVal) : Except String String := do
  let score ← getProp σ result "continuityScore"
  let cd ← getProp σ result "contradictions"
  let er ← getProp σ result "errors"
  let rc ← getProp σ result "recommendations"
  Except.ok ("**Continuity Score:** " ++ interp σ score ++ "/100"
    ++ "\n**Contradictions:** " ++ interp σ (optLenOrZero σ cd)
    ++ "\n**Errors:** " ++ interp σ (optLenOrZero σ er)
    ++ "\n**Recommendations:** " ++ interp σ (optLenOrZero σ rc))

/-- The `creative-coauthor` case of `formatAgentOutput`. -/
def fmtCreativeCoauthor (σ : Store) (result : JSVal) : Except String String := do
  let ss ← getProp σ result "sceneSuggestions"
  let pd ← getProp σ result "plotDevelopments"
  let di ← getProp σ result "dialogueImprovements"
  let ca ← getProp σ result "characterArcGuidance"
  Except.ok ("**Scene Suggestions:** " ++ interp σ (optLenOrZero σ ss)
    ++ "\n**Plot Developments:** " ++ interp σ (optLenOrZero σ pd)
    ++ "\n**Dialogue Ideas:** " ++ interp σ (optLenOrZero σ di)
    ++ "\n**Character Arcs:** " ++ interp σ (optLenOrZero σ ca))

/-- The per-element body of `result.slice(0, 3).map(a => ...)` in the
`intelligent-recall` case: `a.query` throws on nullish elements. -/
def recallLines (σ : Store) : List JSVal → Except String (List String)
  | [] => Except.ok []
  | e :: rest => do
    let q ← getProp σ e "query"
    let tail ← recallLines σ rest
    Except.ok (("â€¢ " ++ interp σ q) :: tail)

/-- The `intelligent-recall` case of `formatAgentOutput`:
`result.length || 0`, then `result.slice(0, 3).map(...).join('\n')`;
`slice`/`map` are TypeErrors on non-array results. -/
def fmtIntelligentRecall (σ : Store) (result : JSVal) : Except String String := do
  let len ← getProp σ result "length"
  let lenOr := if truthy len then len else JSVal.num 0
  let lines ←
    match result with
    | JSVal.ref a =>
      match σ.get? a with
      | some (HObj.arr es) => recallLines σ (es.take 3)
      | _ => Except.error "TypeError: result.slice is not a function"
    | JSVal.str _ => Except.error "TypeError: result.slice(...).map is not a function"
    | _ => Except.error "TypeError: result.slice is not a function"
  Except.ok ("**Insights Generated:** " ++ interp σ lenOr ++ "\n"
    ++ String.intercalate "\n" lines)

/-- The `cinematic-teaser` case of `formatAgentOutput`. -/
def fmtCinematicTeaser (σ : Store) (result : JSVal) : Except String String := do
  let tagline ← getProp σ result "tagline"
  let vis ← getProp σ result "visualPrompts"
  let hooks ← getProp σ result "hooks"
  let hooksJ ← optJoin σ hooks " | "
  Except.ok ("**Tagline:** " ++ interp σ tagline
    ++ "\n**Visual Scenes:** " ++ interp σ (optLenOrZero σ vis)
    ++ "\n**Hooks:** " ++ interp σ hooksJ)

/-- The generic fallback rendering, both the `default` switch case and the
`catch` block: `typeof result === 'string' ? result : JSON.stringify(result, null, 2)`. -/
def jsFallback (σ : Store) (result : JSVal) : Except String JSVal :=
  match result with
  | JSVal.str s => Except.ok (JSVal.str s)
  | v =>
    (jsonStringify σ (σ.length + 1) [] v).map fun o =>
      match o with
      | some s => JSVal.str s
      | none => JSVal.undef

/-- The `try` body of `formatAgentOutput`: the `switch` on `agentType`. -/
def formatBody (σ : Store) (agentType : String) (result : JSVal) : Except String JSVal :=
  if agentType = "story-intelligence" then (fmtStoryIntelligence σ result).map JSVal.str
  else if agentType = "knowledge-graph" then (fmtKnowledgeGraph σ result).map JSVal.str
  else if agentType = "temporal-reasoning" then (fmtTemporalReasoning σ result).map JSVal.str
  else if agentType = "continuity-validator" then (fmtContinuityValidator σ result).map JSVal.str
  else if agentType = "creative-coauthor" then (fmtCreativeCoauthor σ result).map JSVal.str
  else if agentType = "intelligent-recall" then (fmtIntelligentRecall σ result).map JSVal.str
  else if agentType = "cinematic-teaser" then (fmtCinematicTeaser σ result).map JSVal.str
  else jsFallback σ result

/-- `formatAgentOutput(agentType, result)`: the switch body wrapped in the
`try`/`catch` whose handler re-runs the generic fallback. -/
def formatAgentOutput (σ : Store) (agentType : String) (result : JSVal) : Except String JSVal :=
  match formatBody σ agentType result with
  | Except.ok v => Except.ok v
  | Except.error _ => jsFallback σ result

/-! ## Workflow data model (`ScriptWorkflow` as used by the route) -/

/-- `node.data.input`, the snapshot stored on entering `running`. -/
structure InputSnapshot where
  storyBrief : String
  hasManuscript : Bool
  previousAgents : List String
deriving Repr, DecidableEq

/-- `node.data` of a workflow node. -/
structure NodeData where
  agentType : String
  label : String
  status : String
  result : Option JSVal
  output : Option JSVal
  error : Option String
  input : Option InputSnapshot
deriving Repr, DecidableEq

/-- A workflow node. -/
structure WNode where
  id : String
  data : NodeData
deriving Repr, DecidableEq

/-- `workflow.inputs` (only the fields the route reads). -/
structure Inputs where
  manuscript : Option String
  fullText : Option String
deriving Repr, DecidableEq

/-- An entry of `workflow.progress.errors`. -/
structure ProgressError where
  nodeId : String
  error : String
deriving Repr, DecidableEq

/-- `workflow.progress`. -/
structure Progress where
  currentNode : Option String
  completedNodes : List String
  totalNodes : Nat
  errors : List ProgressError
deriving Repr, DecidableEq

/-- The shared agent context threaded through the run: the base inputs,
`previousResults`, and the recognized named slots. -/
structure Context where
  storyBrief : String
  manuscript : String
  previousResults : List (String × JSVal)
  storyContext : Option JSVal
  knowledgeGraph : Option JSVal
  timeline : Option JSVal
  continuityReport : Option JSVal
  suggestions : Option JSVal
  memoryBank : Option JSVal
  teaserContent : Option JSVal
deriving Repr, DecidableEq

/-- The persisted workflow document (the fields the route touches;
`lastRun` is a wall-clock timestamp and is left out of the embedding). -/
structure Workflow where
  brief : Option String
  inputs : Option Inputs
  nodes : List WNode
  status : String
  progress : Option Progress
  analysisContext : Option Context
deriving Repr, DecidableEq

/-- `a || b` on strings where `a` may be absent (JavaScript falsiness of
`undefined` and `""`). -/
def jsOrStr (a : Option String) (b : String) : String :=
  match a with
  | some s => if s = "" then b else s
  | none => b

/-- `workflow.inputs?.manuscript || workflow.inputs?.fullText || ''`. -/
def manuscriptOf (w : Workflow) : String :=
  jsOrStr (w.inputs.bind Inputs.manuscript) (jsOrStr (w.inputs.bind Inputs.fullText) "")

/-- The initial agent context of both modes:
`{ storyBrief: workflow.brief || '', manuscript: ..., previousResults: {} }`. -/
def baseContext (w : Workflow) : Context :=
  { storyBrief := jsOrStr w.brief ""
    manuscript := manuscriptOf w
    previousResults := []
    storyContext := none
    knowledgeGraph := none
    timeline := none
    continuityReport := none
    suggestions := none
    memoryBank := none
    teaserContent := none }

/-- `obj[k] = v` on a string-keyed object: overwrite in place, else append
(JavaScript objects keep first-insertion key order). -/
def setKey : List (String × JSVal) → String → JSVal → List (String × JSVal)
  | [], k, v => [(k, v)]
  | (k', v') :: rest, k, v =>
    if k' = k then (k', v) :: rest else (k', v') :: setKey rest k v

/-- Lookup in a string-keyed object. -/
def lookupKey : List (String × JSVal) → String → Option JSVal
  | [], _ => none
  | (k', v) :: rest, k => if k' = k then some v else lookupKey rest k

/-- The `if`/`else if` chain of `executeSingleAgent` (route lines 35–47)
that restores a recognized agent kind's result into its named context slot.
Note: there is no `cinematic-teaser` case in this chain. -/
def applyProjection (c : Context) (kind : String) (r : JSVal) : Context :=
  if kind = "story-intelligence" then { c with storyContext := some r }
  else if kind = "knowledge-graph" then { c with knowledgeGraph := some r }
  else if kind = "temporal-reasoning" then { c with timeline := some r }
  else if kind = "continuity-validator" then { c with continuityReport := some r }
  else if kind = "creative-coauthor" then { c with suggestions := some r }
  else if kind = "intelligent-recall" then { c with memoryBank := some r }
  else c

/-- One iteration of the `for (const n of workflow.nodes)` loop of
`executeSingleAgent`: skip the target node and nodes without a truthy
`result`; otherwise record the result under its agent kind in
`previousResults` and apply the slot projection. -/
def collectStep (nodeId : String) (c : Context) (n : WNode) : Context :=
  match n.data.result with
  | some r =>
    if n.id != nodeId && truthy r then
      applyProjection { c with previousResults := setKey c.previousResults n.data.agentType r }
        n.data.agentType r
    else c
  | none => c

/-- The context `executeSingleAgent` hands to the agent boundary:
base inputs plus the results of all other nodes (route lines 22–49). -/
def buildSingleContext (w : Workflow) (nodeId : String) : Context :=
  w.nodes.foldl (collectStep nodeId) (baseContext w)

/-- Modelled from the spec: `executeAgent` lives in
`@/lib/agents/agent-executor`, which is not under `src/`.  Per the
Context Accumulator contract (spec section 4.1, with the recognized-slot
list of section 3), the `updatedContext` it returns equals the input
context with `previousResults[agentKind] = result` and, for a recognized
kind, the matching named slot — `storyContext`, `knowledgeGraph`,
`timeline`, `continuityReport`, `suggestions`, `memoryBank`, or
`teaserContent` — set to the result. -/
def projectSpec (kind : String) (r : JSVal) (c : Context) : Context :=
  let c' := { c with previousResults := setKey c.previousResults kind r }
  if kind = "story-intelligence" then { c' with storyContext := some r }
  else if kind = "knowledge-graph" then { c' with knowledgeGraph := some r }
  else if kind = "temporal-reasoning" then { c' with timeline := some r }
  else if kind = "continuity-validator" then { c' with continuityReport := some r }
  else if kind = "creative-coauthor" then { c' with suggestions := some r }
  else if kind = "intelligent-recall" then { c' with memoryBank := some r }
  else if kind = "cinematic-teaser" then { c' with teaserContent := some r }
  else c'

/-- Outcome of one call to the opaque agent boundary: a result value, or a
thrown error whose message is surfaced. -/
inductive ExecOutcome where
  | ok : JSVal → ExecOutcome
  | err : String → ExecOutcome
deriving Repr, DecidableEq

/-- The opaque agent capability, supplied per run: what `executeAgent`
does at each `(agentKind, context)` pair. -/
abbrev ExecOracle := String → Context → ExecOutcome

/-- `{...workflow.analysisContext, ...updatedContext}`: object spread;
every base key of the new context is present and overrides, a named slot
falls back to the old context only when the new one lacks it. -/
def mergeContext (old : Option Context) (c : Context) : Context :=
  match old with
  | none => c
  | some o =>
    { storyBrief := c.storyBrief
      manuscript := c.manuscript
      previousResults := c.previousResults
      storyContext := c.storyContext.orElse fun _ => o.storyContext
      knowledgeGraph := c.knowledgeGraph.orElse fun _ => o.knowledgeGraph
      timeline := c.timeline.orElse fun _ => o.timeline
      continuityReport := c.continuityReport.orElse fun _ => o.continuityReport
      suggestions := c.suggestions.orElse fun _ => o.suggestions
      memoryBank := c.memoryBank.orElse fun _ => o.memoryBank
      teaserContent := c.teaserContent.orElse fun _ => o.teaserContent }

/-- `agentType || node.data.agentType` of `executeSingleAgent`. -/
def effectiveAgentType (requested : Option String) (node : WNode) : String :=
  match requested with
  | some a => if a = "" then node.data.agentType else a
  | none => node.data.agentType

/-- Mutate the first node whose id matches, as mutating the object
returned by `workflow.nodes.find` does. -/
def updateFirst (ns : List WNode) (nodeId : String) (f : NodeData → NodeData) : List WNode :=
  match ns with
  | [] => []
  | n :: rest =>
    if n.id = nodeId then { n with data := f n.data } :: rest
    else n :: updateFirst rest nodeId f

/-- The input snapshot captured on a `running` transition (route lines
176–180 and 65–69 build exactly this object from the current context). -/
def inputSnapshot (c : Context) : InputSnapshot :=
  { storyBrief := c.storyBrief.take 500 ++ "..."
    hasManuscript := c.manuscript != ""
    previousAgents := c.previousResults.map Prod.fst }

/-- The JSON response of the single-agent mode. -/
inductive SingleResp where
  | notFound : SingleResp
  | success : JSVal → NodeData → SingleResp
  | failure : String → SingleResp
deriving Repr, DecidableEq

/-- `executeSingleAgent(workflow, nodeId, agentType)` (route lines 12–101):
returns the workflow document as left by the handler together with the
response. -/
def executeSingleAgent (σ : Store) (exec : ExecOracle) (w : Workflow)
    (nodeId : String) (requestedAgentType : Option String) : Workflow × SingleResp :=
  match w.nodes.find? (fun n => n.id == nodeId) with
  | none => (w, SingleResp.notFound)
  | some node =>
    let ctx := buildSingleContext w nodeId
    let w1 := { w with nodes := updateFirst w.nodes nodeId fun d => { d with status := "running" } }
    let eff := effectiveAgentType requestedAgentType node
    match exec eff ctx with
    | ExecOutcome.err msg =>
      let w2 := { w1 with nodes := updateFirst w1.nodes nodeId fun d =>
        { d with status := "error", error := some msg } }
      (w2, SingleResp.failure msg)
    | ExecOutcome.ok result =>
      let w2 := { w1 with nodes := updateFirst w1.nodes nodeId fun d =>
        { d with status := "success", result := some result } }
      match formatAgentOutput σ eff result with
      | Except.error msg =>
        let w3 := { w2 with nodes := updateFirst w2.nodes nodeId fun d =>
          { d with status := "error", error := some msg } }
        (w3, SingleResp.failure msg)
      | Except.ok out =>
        let w3 := { w2 with nodes := updateFirst w2.nodes nodeId fun d =>
          { d with output := some out, input := some (inputSnapshot ctx) } }
        let w4 := { w3 with analysisContext := some (mergeContext w3.analysisContext (projectSpec eff result ctx)) }
        (w4, SingleResp.success result
          { node.data with
              status := "success", result := some result,
              output := some out, input := some (inputSnapshot ctx) })

/-! ## Full-run orchestration loop -/

/-- An entry of the `results` array returned by the full run. -/
structure ResultEntry where
  nodeId : String
  agentType : String
  agentName : String
  result : JSVal
deriving Repr, DecidableEq

/-- `agentDef?.name || node.data.label`; `AGENT_DEFINITIONS` is external
to the route, so the name table is a parameter of the run. -/
def agentNameFor (defs : List (String × String)) (kind : String) (label : String) : String :=
  match defs.lookup kind with
  | some nm => if nm = "" then label else nm
  | none => label

/-- The loop's accumulated state: the document, the shared context, and
the `results` array. -/
structure RunState where
  w : Workflow
  ctx : Context
  results : List ResultEntry
deriving Repr, DecidableEq

/-- Mutate the node at position `i` of the node array. -/
def modifyAt (ns : List WNode) (i : Nat) (f : NodeData → NodeData) : List WNode :=
  match ns, i with
  | [], _ => []
  | n :: rest, 0 => { n with data := f n.data } :: rest
  | n :: rest, i + 1 => n :: modifyAt rest i f

/-- Update the progress record (present throughout a full run). -/
def setProgress (w : Workflow) (f : Progress → Progress) : Workflow :=
  { w with progress := w.progress.map f }

/-- Update the data of the node at position `i`. -/
def setNodeData (w : Workflow) (i : Nat) (f : NodeData → NodeData) : Workflow :=
  { w with nodes := modifyAt w.nodes i f }

/-- One iteration of the full-run `for (const node of workflow.nodes)`
loop (route lines 166–216), with the `try`/`catch` continuation policy:
mark running and snapshot the input, invoke the agent, then either record
success (advance the context, push the result entry, store the rendered
output, append to `completedNodes`) or record the thrown message (mark the
node `error` and append to `progress.errors`).  A throw from
`formatAgentOutput` lands in the same `catch`, after the context, results
entry and `node.data.result` were already written. -/
def runNode (σ : Store) (defs : List (String × String)) (exec : ExecOracle)
    (st : RunState) (i : Nat) : RunState :=
  match st.w.nodes.get? i with
  | none => st
  | some node =>
    let kind := node.data.agentType
    let w1 := setNodeData (setProgress st.w fun p => { p with currentNode := some node.id }) i
      fun d => { d with status := "running", input := some (inputSnapshot st.ctx) }
    match exec kind st.ctx with
    | ExecOutcome.err msg =>
      let w2 := setProgress (setNodeData w1 i fun d => { d with status := "error", error := some msg })
        fun p => { p with errors := p.errors ++ [⟨node.id, msg⟩] }
      { st with w := w2 }
    | ExecOutcome.ok result =>
      let ctx' := projectSpec kind result st.ctx
      let results' := st.results ++ [⟨node.id, kind, agentNameFor defs kind node.data.label, result⟩]
      let w2 := setNodeData w1 i fun d => { d with status := "success", result := some result }
      match formatAgentOutput σ kind result with
      | Except.error msg =>
        let w3 := setProgress (setNodeData w2 i fun d => { d with status := "error", error := some msg })
          fun p => { p with errors := p.errors ++ [⟨node.id, msg⟩] }
        ⟨w3, ctx', results'⟩
      | Except.ok out =>
        let w3 := setProgress (setNodeData w2 i fun d => { d with output := some out })
          fun p => { p with completedNodes := p.completedNodes ++ [node.id] }
        ⟨w3, ctx', results'⟩

/-- Sequential execution of the listed node positions. -/
def runNodes (σ : Store) (defs : List (String × String)) (exec : ExecOracle) :
    List Nat → RunState → RunState
  | [], st => st
  | i :: rest, st => runNodes σ defs exec rest (runNode σ defs exec st i)

/-! ## Execution summary -/

/-- Truthiness of a possibly-absent value. -/
def truthyOpt : Option JSVal → Bool
  | some v => truthy v
  | none => false

/-- `!r.result?.error` (negated by the caller): whether the result value
carries a truthy `error` field. -/
def resultHasError (σ : Store) (r : JSVal) : Bool := truthy (getPropOpt σ r "error")

/-- The summary record built by `generateExecutionSummary`. -/
structure Summary where
  agentsExecuted : Nat
  successfulAgents : Nat
  storyAnalyzed : Bool
  knowledgeGraphBuilt : Bool
  timelineAnalyzed : Bool
  continuityChecked : Bool
  suggestionsGenerated : Bool
  teaserCreated : Bool
  highlights : List String
deriving Repr, DecidableEq

/-- The four conditional highlight pushes of `generateExecutionSummary`.
Each guard is the truthiness of the slot, so the member accesses inside
are on non-nullish receivers and cannot throw; absent sub-fields render
as `undefined` or default to `0`. -/
def highlightsOf (σ : Store) (c : Context) : List String :=
  (if truthyOpt c.storyContext then
    ["Genre identified: " ++ interp σ (getPropOpt σ (c.storyContext.getD JSVal.undef) "genre")]
   else []) ++
  (if truthyOpt c.knowledgeGraph then
    [interp σ (optLenOrZero σ (getPropOpt σ (c.knowledgeGraph.getD JSVal.undef) "characters"))
      ++ " characters mapped"]
   else []) ++
  (if truthyOpt c.continuityReport then
    ["Continuity score: " ++ interp σ (getPropOpt σ (c.continuityReport.getD JSVal.undef) "continuityScore") ++ "/100"]
   else []) ++
  (if truthyOpt c.teaserContent then
    ["Trailer tagline: \"" ++ interp σ (getPropOpt σ (c.teaserContent.getD JSVal.undef) "tagline") ++ "\""]
   else [])

/-- `generateExecutionSummary(results, context)` (route lines 282–309). -/
def generateExecutionSummary (σ : Store) (results : List ResultEntry) (context : Context) : Summary :=
  { agentsExecuted := results.length
    successfulAgents := (results.filter fun r => ! resultHasError σ r.result).length
    storyAnalyzed := truthyOpt context.storyContext
    knowledgeGraphBuilt := truthyOpt context.knowledgeGraph
    timelineAnalyzed := truthyOpt context.timeline
    continuityChecked := truthyOpt context.continuityReport
    suggestionsGenerated := truthyOpt context.suggestions
    teaserCreated := truthyOpt context.teaserContent
    highlights := highlightsOf σ context }

/-- The JSON response of a full run. -/
structure FullResponse where
  success : Bool
  workflow : Workflow
  results : List ResultEntry
  summary : Summary
deriving Repr, DecidableEq

/-- The progress reset of route lines 147–152. -/
def initProgress (w : Workflow) : Progress :=
  { currentNode := w.nodes.head?.map WNode.id, completedNodes := [],
    totalNodes := w.nodes.length, errors := [] }

/-- The state after the reset of route lines 145–153 and the context
initialization of lines 160–164. -/
def initialState (w : Workflow) : RunState :=
  ⟨{ w with status := "running", progress := some (initProgress w) }, baseContext w, []⟩

/-- The loop state after processing every node in stored order. -/
def fullRunState (σ : Store) (defs : List (String × String)) (exec : ExecOracle)
    (w : Workflow) : RunState :=
  runNodes σ defs exec (List.range w.nodes.length) (initialState w)

/-- The full-workflow branch of `POST` (route lines 143–234): reset
progress, run every node in stored order, compute the final status
(`error` when nothing completed, else `partial` when errors exist, else
`completed`), clear `currentNode`, persist the final context, and answer
with the results and the execution summary. -/
def fullRun (σ : Store) (defs : List (String × String)) (exec : ExecOracle) (w : Workflow) :
    FullResponse :=
  let stF := fullRunState σ defs exec w
  let compLen := (stF.w.progress.map fun p => p.completedNodes.length).getD 0
  let errLen := (stF.w.progress.map fun p => p.errors.length).getD 0
  let allFailed : Bool := compLen == 0
  let hasErrors : Bool := errLen != 0
  let finalStatus := if allFailed then "error" else if hasErrors then "partial" else "completed"
  let wF := { stF.w with
                status := finalStatus,
                progress := stF.w.progress.map fun p => { p with currentNode := none },
                analysisContext := some stF.ctx }
  { success := ! allFailed, workflow := wF, results := stF.results,
    summary := generateExecutionSummary σ stF.results stF.ctx }

/-! ## Supporting lemmas -/

theorem lookupKey_setKey (l : List (String × JSVal)) (k j : String) (v : JSVal) :
    lookupKey (setKey l k v) j = if j = k then some v else lookupKey l j := by
  induction l with
  | nil =>
    simp only [setKey, lookupKey]
    by_cases h : j = k
    · rw [if_pos h.symm, if_pos h]
    · rw [if_neg (fun hh => h hh.symm), if_neg h]
  | cons hd tl ih =>
    obtain ⟨k', v'⟩ := hd
    simp only [setKey]
    by_cases hk : k' = k
    · subst hk
      by_cases hj : j = k'
      · subst hj; simp [lookupKey]
      · have hj' : ¬ k' = j := fun h => hj h.symm
        simp [lookupKey, hj, hj']
    · by_cases hj : k' = j
      · subst hj
        simp [lookupKey, hk, fun h : k' = k => hk h]
      · simp [lookupKey, hk, hj, ih]

theorem modifyAt_length (ns : List WNode) (i : Nat) (f : NodeData → NodeData) :
    (modifyAt ns i f).length = ns.length := by
  induction ns generalizing i with
  | nil => simp [modifyAt]
  | cons n rest ih =>
    cases i with
    | zero => simp [modifyAt]
    | succ j => simp [modifyAt, ih]

theorem modifyAt_get?_self (ns : List WNode) (i : Nat) (f : NodeData → NodeData) :
    (modifyAt ns i f).get? i = (ns.get? i).map fun n => { n with data := f n.data } := by
  induction ns generalizing i with
  | nil => simp [modifyAt]
  | cons n rest ih =>
    cases i with
    | zero => simp [modifyAt]
    | succ j => simpa [modifyAt] using ih j

theorem modifyAt_getElem? (ns : List WNode) (i : Nat) (f : NodeData → NodeData) :
    (modifyAt ns i f)[i]? = (ns[i]?).map fun n => { n with data := f n.data } := by
  simpa [List.get?_eq_getElem?] using modifyAt_get?_self ns i f

theorem setProgress_progress (w : Workflow) (f : Progress → Progress) :
    (setProgress w f).progress = w.progress.map f := rfl

theorem setProgress_nodes (w : Workflow) (f : Progress → Progress) :
    (setProgress w f).nodes = w.nodes := rfl

theorem setNodeData_progress (w : Workflow) (i : Nat) (f : NodeData → NodeData) :
    (setNodeData w i f).progress = w.progress := rfl

theorem setNodeData_nodes (w : Workflow) (i : Nat) (f : NodeData → NodeData) :
    (setNodeData w i f).nodes = modifyAt w.nodes i f := rfl

/-- The error branch of the loop body, unfolded: the node invocation threw. -/
theorem runNode_err (σ : Store) (defs : List (String × String)) (exec : ExecOracle)
    (st : RunState) (i : Nat) (node : WNode) (msg : String)
    (hn : st.w.nodes.get? i = some node)
    (hex : exec node.data.agentType st.ctx = ExecOutcome.err msg) :
    runNode σ defs exec st i =
      { st with
          w := setProgress
                (setNodeData
                  (setNodeData (setProgress st.w fun p => { p with currentNode := some node.id }) i
                    fun d => { d with status := "running", input := some (inputSnapshot st.ctx) })
                  i fun d => { d with status := "error", error := some msg })
                fun p => { p with errors := p.errors ++ [⟨node.id, msg⟩] } } := by
  unfold runNode
  rw [hn]
  simp only [hex]

/-- The success branch of the loop body, unfolded: the invocation returned
`result` and the output formatter returned `out`. -/
theorem runNode_ok (σ : Store) (defs : List (String × String)) (exec : ExecOracle)
    (st : RunState) (i : Nat) (node : WNode) (result : JSVal) (out : JSVal)
    (hn : st.w.nodes.get? i = some node)
    (hex : exec node.data.agentType st.ctx = ExecOutcome.ok result)
    (hfmt : formatAgentOutput σ node.data.agentType result = Except.ok out) :
    runNode σ defs exec st i =
      ⟨setProgress
          (setNodeData
            (setNodeData
              (setNodeData (setProgress st.w fun p => { p with currentNode := some node.id }) i
                fun d => { d with status := "running", input := some (inputSnapshot st.ctx) })
              i fun d => { d with status := "success", result := some result })
            i fun d => { d with output := some out })
          fun p => { p with completedNodes := p.completedNodes ++ [node.id] },
        projectSpec node.data.agentType result st.ctx,
        st.results ++ [⟨node.id, node.data.agentType,
          agentNameFor defs node.data.agentType node.data.label, result⟩]⟩ := by
  unfold runNode
  rw [hn]
  simp only [hex, hfmt]

/-- The branch where the invocation succeeded but the output formatter
threw: the catch fires after the context, the results entry and
`node.data.result` were already written. -/
theorem runNode_fmt_err (σ : Store) (defs : List (String × String)) (exec : ExecOracle)
    (st : RunState) (i : Nat) (node : WNode) (result : JSVal) (msg : String)
    (hn : st.w.nodes.get? i = some node)
    (hex : exec node.data.agentType st.ctx = ExecOutcome.ok result)
    (hfmt : formatAgentOutput σ node.data.agentType result = Except.error msg) :
    runNode σ defs exec st i =
      ⟨setProgress
          (setNodeData
            (setNodeData
              (setNodeData (setProgress st.w fun p => { p with currentNode := some node.id }) i
                fun d => { d with status := "running", input := some (inputSnapshot st.ctx) })
              i fun d => { d with status := "success", result := some result })
            i fun d => { d with status := "error", error := some msg })
          fun p => { p with errors := p.errors ++ [⟨node.id, msg⟩] },
        projectSpec node.data.agentType result st.ctx,
        st.results ++ [⟨node.id, node.data.agentType,
          agentNameFor defs node.data.agentType node.data.label, result⟩]⟩ := by
  unfold runNode
  rw [hn]
  simp only [hex, hfmt]

/-- Each processed node appends to exactly one of
`progress.completedNodes` and `progress.errors`, preserves the node count
and `totalNodes`, grows `results` by at most one entry, and keeps
`completedNodes` no longer than `results`. -/
theorem runNode_step (σ : Store) (defs : List (String × String)) (exec : ExecOracle)
    (st : RunState) (i : Nat) (node : WNode) (p : Progress)
    (hn : st.w.nodes.get? i = some node) (hp : st.w.progress = some p) :
    ∃ p', (runNode σ defs exec st i).w.progress = some p' ∧
      (runNode σ defs exec st i).w.nodes.length = st.w.nodes.length ∧
      p'.totalNodes = p.totalNodes ∧
      p'.completedNodes.length + p'.errors.length
        = p.completedNodes.length + p.errors.length + 1 ∧
      (runNode σ defs exec st i).results.length ≤ st.results.length + 1 ∧
      (p.completedNodes.length ≤ st.results.length →
        p'.completedNodes.length ≤ (runNode σ defs exec st i).results.length) := by
  cases hex : exec node.data.agentType st.ctx with
  | err msg =>
    rw [runNode_err σ defs exec st i node msg hn hex]
    refine ⟨{ p with currentNode := some node.id, errors := p.errors ++ [⟨node.id, msg⟩] },
      ?_, ?_, ?_, ?_, ?_, ?_⟩
    · simp [setProgress, setNodeData, hp]
    · simp [setProgress, setNodeData, modifyAt_length]
    · rfl
    · simp [List.length_append]
      omega
    · simp
    · intro h; simpa using h
  | ok result =>
    cases hfmt : formatAgentOutput σ node.data.agentType result with
    | error msg =>
      rw [runNode_fmt_err σ defs exec st i node result msg hn hex hfmt]
      refine ⟨{ p with currentNode := some node.id, errors := p.errors ++ [⟨node.id, msg⟩] },
        ?_, ?_, ?_, ?_, ?_, ?_⟩
      · simp [setProgress, setNodeData, hp]
      · simp [setProgress, setNodeData, modifyAt_length]
      · rfl
      · simp [List.length_append]
        omega
      · simp
      · intro h; simp; omega
    | ok out =>
      rw [runNode_ok σ defs exec st i node result out hn hex hfmt]
      refine ⟨{ p with
                  currentNode := some node.id,
                  completedNodes := p.completedNodes ++ [node.id] }, ?_, ?_, ?_, ?_, ?_, ?_⟩
      · simp [setProgress, setNodeData, hp]
      · simp [setProgress, setNodeData, modifyAt_length]
      · rfl
      · simp [List.length_append]
        omega
      · simp
      · intro h; simp; omega

/-- Loop invariant over a list of valid node positions. -/
theorem runNodes_inv (σ : Store) (defs : List (String × String)) (exec : ExecOracle) :
    ∀ (is : List Nat) (st : RunState) (p : Progress),
    st.w.progress = some p → (∀ i ∈ is, i < st.w.nodes.length) →
    ∃ p', (runNodes σ defs exec is st).w.progress = some p' ∧
      (runNodes σ defs exec is st).w.nodes.length = st.w.nodes.length ∧
      p'.totalNodes = p.totalNodes ∧
      p'.completedNodes.length + p'.errors.length
        = p.completedNodes.length + p.errors.length + is.length ∧
      (runNodes σ defs exec is st).results.length ≤ st.results.length + is.length ∧
      (p.completedNodes.length ≤ st.results.length →
        p'.completedNodes.length ≤ (runNodes σ defs exec is st).results.length) := by
  intro is
  induction is with
  | nil =>
    intro st p hp _
    exact ⟨p, hp, rfl, rfl, by simp, by simp [runNodes], fun h => h⟩
  | cons i rest ih =>
    intro st p hp hvalid
    have hi : i < st.w.nodes.length := hvalid i (List.mem_cons_self i rest)
    obtain ⟨node, hn⟩ : ∃ node, st.w.nodes.get? i = some node :=
      ⟨_, List.get?_eq_get hi⟩
    obtain ⟨p1, hp1, hlen1, htot1, hsum1, hres1, hmono1⟩ :=
      runNode_step σ defs exec st i node p hn hp
    have hvalid' : ∀ j ∈ rest, j < (runNode σ defs exec st i).w.nodes.length := by
      intro j hj; rw [hlen1]; exact hvalid j (List.mem_cons_of_mem _ hj)
    obtain ⟨p', hp', hlen', htot', hsum', hres', hmono'⟩ :=
      ih (runNode σ defs exec st i) p1 hp1 hvalid'
    refine ⟨p', hp', ?_, ?_, ?_, ?_, ?_⟩
    · rw [show runNodes σ defs exec (i :: rest) st
            = runNodes σ defs exec rest (runNode σ defs exec st i) from rfl, hlen', hlen1]
    · rw [htot', htot1]
    · rw [hsum', hsum1]; simp [List.length_cons]; omega
    · rw [show runNodes σ defs exec (i :: rest) st
            = runNodes σ defs exec rest (runNode σ defs exec st i) from rfl]
      calc (runNodes σ defs exec rest (runNode σ defs exec st i)).results.length
          ≤ (runNode σ defs exec st i).results.length + rest.length := hres'
        _ ≤ (st.results.length + 1) + rest.length := by omega
        _ = st.results.length + (i :: rest).length := by simp [List.length_cons]; omega
    · intro h
      exact hmono' (hmono1 h)

/-- The loop-end invariant, instantiated at the initial state of a full run. -/
theorem fullRunState_inv (σ : Store) (defs : List (String × String)) (exec : ExecOracle)
    (w : Workflow) :
    ∃ p', (fullRunState σ defs exec w).w.progress = some p' ∧
      p'.totalNodes = w.nodes.length ∧
      p'.completedNodes.length + p'.errors.length = w.nodes.length ∧
      (fullRunState σ defs exec w).results.length ≤ w.nodes.length ∧
      p'.completedNodes.length ≤ (fullRunState σ defs exec w).results.length := by
  obtain ⟨p', hp', hlen, htot, hsum, hres, hmono⟩ :=
    runNodes_inv σ defs exec (List.range w.nodes.length) (initialState w) (initProgress w)
      rfl (by intro i hi; simpa [initialState] using List.mem_range.mp hi)
  refine ⟨p', hp', ?_, ?_, ?_, ?_⟩
  · rw [htot]; rfl
  · simpa [initProgress, List.length_range] using hsum
  · simpa [initialState, fullRunState, List.length_range] using hres
  · exact hmono (by simp [initProgress, initialState])

/-- The final-status formula of route lines 219–221, characterized. -/
theorem statusString_spec (c e : Nat) :
    ((if c == 0 then "error" else if e != 0 then "partial" else "completed") = "error" ↔ c = 0) ∧
    ((if c == 0 then "error" else if e != 0 then "partial" else "completed") = "partial"
      ↔ (c ≠ 0 ∧ e ≠ 0)) ∧
    ((if c == 0 then "error" else if e != 0 then "partial" else "completed") = "completed"
      ↔ (c ≠ 0 ∧ e = 0)) := by
  by_cases hc : c = 0 <;> by_cases he : e = 0 <;> simp [hc, he]

/-- C1: for every pipeline with at least one node, after the full-run
orchestration loop finishes, `progress.completedNodes.length +
progress.errors.length` equals the node count, and the final pipeline
status is `"error"` exactly when `completedNodes` is empty, `"partial"`
exactly when `completedNodes` is non-empty and `errors` is non-empty, and
`"completed"` exactly when `completedNodes` is non-empty and `errors` is
empty. -/
theorem claim1_full_run_partition_and_status (σ : Store) (defs : List (String × String))
    (exec : ExecOracle) (w : Workflow) (_hN : 1 ≤ w.nodes.length) :
    ∃ p, (fullRun σ defs exec w).workflow.progress = some p ∧
      p.completedNodes.length + p.errors.length = w.nodes.length ∧
      ((fullRun σ defs exec w).workflow.status = "error" ↔ p.completedNodes.length = 0) ∧
      ((fullRun σ defs exec w).workflow.status = "partial"
        ↔ (p.completedNodes.length ≠ 0 ∧ p.errors.length ≠ 0)) ∧
      ((fullRun σ defs exec w).workflow.status = "completed"
        ↔ (p.completedNodes.length ≠ 0 ∧ p.errors.length = 0)) := by
  obtain ⟨p', hp', htot, hsum, hresLe, hcompLe⟩ := fullRunState_inv σ defs exec w
  have hprog : (fullRun σ defs exec w).workflow.progress
      = some { p' with currentNode := none } := by
    simp only [fullRun]
    simp [hp']
  have hstat : (fullRun σ defs exec w).workflow.status
      = (if p'.completedNodes.length == 0 then "error"
         else if p'.errors.length != 0 then "partial" else "completed") := by
    simp only [fullRun]
    simp [hp']
  obtain ⟨hserr, hspart, hscomp⟩ := statusString_spec p'.completedNodes.length p'.errors.length
  exact ⟨{ p' with currentNode := none }, hprog, hsum, by rw [hstat]; exact hserr,
    by rw [hstat]; exact hspart, by rw [hstat]; exact hscomp⟩

theorem updateFirst_find? (ns : List WNode) (nid : String) (f : NodeData → NodeData) :
    (updateFirst ns nid f).find? (fun n => n.id == nid)
      = (ns.find? (fun n => n.id == nid)).map fun n => { n with data := f n.data } := by
  induction ns with
  | nil => rfl
  | cons n rest ih =>
    by_cases h : n.id = nid
    · simp [updateFirst, h, List.find?]
    · have hb : (n.id == nid) = false := by simp [h]
      simp [updateFirst, h, List.find?, ih, hb]

theorem updateFirst_filter_ne (ns : List WNode) (nid : String) (f : NodeData → NodeData) :
    (updateFirst ns nid f).filter (fun n => n.id != nid)
      = ns.filter (fun n => n.id != nid) := by
  induction ns with
  | nil => rfl
  | cons n rest ih =>
    by_cases h : n.id = nid
    · simp [updateFirst, h, List.filter]
    · have hb : (n.id != nid) = true := by simp [h]
      simp [updateFirst, h, List.filter, ih, hb]

/-- The single-node branch where the agent invocation threw, unfolded. -/
theorem executeSingleAgent_err (σ : Store) (exec : ExecOracle) (w : Workflow)
    (nodeId : String) (requested : Option String) (node : WNode) (msg : String)
    (hfind : w.nodes.find? (fun n => n.id == nodeId) = some node)
    (hex : exec (effectiveAgentType requested node) (buildSingleContext w nodeId)
      = ExecOutcome.err msg) :
    executeSingleAgent σ exec w nodeId requested =
      ({ w with
           nodes := updateFirst
             (updateFirst w.nodes nodeId fun d => { d with status := "running" })
             nodeId fun d => { d with status := "error", error := some msg } },
        SingleResp.failure msg) := by
  unfold executeSingleAgent
  rw [hfind]
  simp only [hex]

/-- The single-node branch where the invocation and the formatter both
succeeded, unfolded. -/
theorem executeSingleAgent_ok (σ : Store) (exec : ExecOracle) (w : Workflow)
    (nodeId : String) (requested : Option String) (node : WNode) (result out : JSVal)
    (hfind : w.nodes.find? (fun n => n.id == nodeId) = some node)
    (hex : exec (effectiveAgentType requested node) (buildSingleContext w nodeId)
      = ExecOutcome.ok result)
    (hfmt : formatAgentOutput σ (effectiveAgentType requested node) result = Except.ok out) :
    executeSingleAgent σ exec w nodeId requested =
      (let w3 : Workflow := { w with
          nodes := updateFirst
            (updateFirst
              (updateFirst w.nodes nodeId fun d => { d with status := "running" })
              nodeId fun d => { d with status := "success", result := some result })
            nodeId fun d =>
              { d with output := some out,
                       input := some (inputSnapshot (buildSingleContext w nodeId)) } }
       ({ w3 with
            analysisContext := some (mergeContext w3.analysisContext
              (projectSpec (effectiveAgentType requested node) result (buildSingleContext w nodeId))) },
         SingleResp.success result
           { node.data with
               status := "success", result := some result, output := some out,
               input := some (inputSnapshot (buildSingleContext w nodeId)) })) := by
  unfold executeSingleAgent
  rw [hfind]
  simp only [hex, hfmt]

/-- The single-node branch where the invocation succeeded but the
formatter threw, unfolded: the catch overwrites the freshly-stored
success status but keeps the freshly-stored result. -/
theorem executeSingleAgent_fmt_err (σ : Store) (exec : ExecOracle) (w : Workflow)
    (nodeId : String) (requested : Option String) (node : WNode) (result : JSVal) (msg : String)
    (hfind : w.nodes.find? (fun n => n.id == nodeId) = some node)
    (hex : exec (effectiveAgentType requested node) (buildSingleContext w nodeId)
      = ExecOutcome.ok result)
    (hfmt : formatAgentOutput σ (effectiveAgentType requested node) result = Except.error msg) :
    executeSingleAgent σ exec w nodeId requested =
      ({ w with
           nodes := updateFirst
             (updateFirst
               (updateFirst w.nodes nodeId fun d => { d with status := "running" })
               nodeId fun d => { d with status := "success", result := some result })
             nodeId fun d => { d with status := "error", error := some msg } },
        SingleResp.failure msg) := by
  unfold executeSingleAgent
  rw [hfind]
  simp only [hex, hfmt]

/-- C5: a single-node run never modifies the pipeline's progress record
or overall pipeline status, and leaves every node other than the target
unchanged (all persisted fields), whether the target invocation succeeds
or fails. -/
theorem claim5_single_run_frame (σ : Store) (exec : ExecOracle) (w : Workflow)
    (nodeId : String) (requested : Option String) :
    (executeSingleAgent σ exec w nodeId requested).1.status = w.status ∧
    (executeSingleAgent σ exec w nodeId requested).1.progress = w.progress ∧
    (executeSingleAgent σ exec w nodeId requested).1.nodes.filter (fun n => n.id != nodeId)
      = w.nodes.filter (fun n => n.id != nodeId) := by
  cases hfind : w.nodes.find? (fun n => n.id == nodeId) with
  | none =>
    unfold executeSingleAgent
    rw [hfind]
    exact ⟨rfl, rfl, rfl⟩
  | some node =>
    cases hex : exec (effectiveAgentType requested node) (buildSingleContext w nodeId) with
    | err msg =>
      rw [executeSingleAgent_err σ exec w nodeId requested node msg hfind hex]
      exact ⟨rfl, rfl, by simp [updateFirst_filter_ne]⟩
    | ok result =>
      cases hfmt : formatAgentOutput σ (effectiveAgentType requested node) result with
      | error msg =>
        rw [executeSingleAgent_fmt_err σ exec w nodeId requested node result msg hfind hex hfmt]
        exact ⟨rfl, rfl, by simp [updateFirst_filter_ne]⟩
      | ok out =>
        rw [executeSingleAgent_ok σ exec w nodeId requested node result out hfind hex hfmt]
        exact ⟨rfl, rfl, by simp [updateFirst_filter_ne]⟩

/-- C7: when a node's agent invocation fails — in full-run or single-node
mode — the node afterwards carries status `"error"` and the failure's
message as its error detail, while its `result` and rendered `output`
fields are not written by the error transition (they remain exactly as
they were, in particular unset when they were unset). -/
theorem claim7_error_transition :
    (∀ (σ : Store) (defs : List (String × String)) (exec : ExecOracle)
       (st : RunState) (i : Nat) (node : WNode) (msg : String),
      st.w.nodes.get? i = some node →
      exec node.data.agentType st.ctx = ExecOutcome.err msg →
      (runNode σ defs exec st i).w.nodes.get? i
        = some ⟨node.id, { node.data with
                             status := "error", error := some msg,
                             input := some (inputSnapshot st.ctx) }⟩) ∧
    (∀ (σ : Store) (exec : ExecOracle) (w : Workflow) (nodeId : String)
       (requested : Option String) (node : WNode) (msg : String),
      w.nodes.find? (fun n => n.id == nodeId) = some node →
      exec (effectiveAgentType requested node) (buildSingleContext w nodeId)
        = ExecOutcome.err msg →
      (executeSingleAgent σ exec w nodeId requested).1.nodes.find? (fun n => n.id == nodeId)
        = some ⟨node.id, { node.data with status := "error", error := some msg }⟩ ∧
      (executeSingleAgent σ exec w nodeId requested).2 = SingleResp.failure msg) := by
  constructor
  · intro σ defs exec st i node msg hn hex
    have hn' : st.w.nodes[i]? = some node := by simpa [List.get?_eq_getElem?] using hn
    rw [runNode_err σ defs exec st i node msg hn hex]
    simp [setProgress, setNodeData, modifyAt_getElem?, hn']
  · intro σ exec w nodeId requested node msg hfind hex
    rw [executeSingleAgent_err σ exec w nodeId requested node msg hfind hex]
    refine ⟨?_, rfl⟩
    simp [updateFirst_find?, hfind]

/-- C9: on every node transition to `running`, the captured input
snapshot is the bounded projection of the current context — the brief
text truncated to at most 500 characters plus the explicit `"..."`
truncation marker, the manuscript reduced to a boolean presence flag, and
`previousResults` reduced to the list of agent kinds already executed.
The first conjunct characterizes the snapshot's content; the second shows
the full-run loop stores exactly this snapshot on the node it set to
`running` (on every branch); the third shows the single-node runner
stores it on its success path (its only path that writes `input`). -/
theorem claim9_running_snapshot :
    (∀ c : Context,
      (inputSnapshot c).storyBrief = c.storyBrief.take 500 ++ "..." ∧
      (c.storyBrief.take 500).length ≤ 500 ∧
      (inputSnapshot c).hasManuscript = (c.manuscript != "") ∧
      (inputSnapshot c).previousAgents = c.previousResults.map Prod.fst) ∧
    (∀ (σ : Store) (defs : List (String × String)) (exec : ExecOracle)
       (st : RunState) (i : Nat) (node : WNode),
      st.w.nodes.get? i = some node →
      ∃ node', (runNode σ defs exec st i).w.nodes.get? i = some node' ∧
        node'.data.input = some (inputSnapshot st.ctx)) ∧
    (∀ (σ : Store) (exec : ExecOracle) (w : Workflow) (nodeId : String)
       (requested : Option String) (node : WNode) (result out : JSVal),
      w.nodes.find? (fun n => n.id == nodeId) = some node →
      exec (effectiveAgentType requested node) (buildSingleContext w nodeId)
        = ExecOutcome.ok result →
      formatAgentOutput σ (effectiveAgentType requested node) result = Except.ok out →
      ∃ node', (executeSingleAgent σ exec w nodeId requested).1.nodes.find?
          (fun n => n.id == nodeId) = some node' ∧
        node'.data.input = some (inputSnapshot (buildSingleContext w nodeId))) := by
  refine ⟨?_, ?_, ?_⟩
  · intro c
    refine ⟨rfl, ?_, rfl, rfl⟩
    rw [String.take_eq]
    exact List.length_take_le _ _
  · intro σ defs exec st i node hn
    have hn' : st.w.nodes[i]? = some node := by simpa [List.get?_eq_getElem?] using hn
    cases hex : exec node.data.agentType st.ctx with
    | err msg =>
      rw [runNode_err σ defs exec st i node msg hn hex]
      refine ⟨⟨node.id, { node.data with
                            status := "error", error := some msg,
                            input := some (inputSnapshot st.ctx) }⟩, ?_, rfl⟩
      simp [setProgress, setNodeData, modifyAt_getElem?, hn']
    | ok result =>
      cases hfmt : formatAgentOutput σ node.data.agentType result with
      | error msg =>
        rw [runNode_fmt_err σ defs exec st i node result msg hn hex hfmt]
        refine ⟨⟨node.id, { node.data with
                              status := "error", result := some result, error := some msg,
                              input := some (inputSnapshot st.ctx) }⟩, ?_, rfl⟩
        simp [setProgress, setNodeData, modifyAt_getElem?, hn']
      | ok out =>
        rw [runNode_ok σ defs exec st i node result out hn hex hfmt]
        refine ⟨⟨node.id, { node.data with
                              status := "success", result := some result, output := some out,
                              input := some (inputSnapshot st.ctx) }⟩, ?_, rfl⟩
        simp [setProgress, setNodeData, modifyAt_getElem?, hn']
  · intro σ exec w nodeId requested node result out hfind hex hfmt
    rw [executeSingleAgent_ok σ exec w nodeId requested node result out hfind hex hfmt]
    refine ⟨⟨node.id, { node.data with
                          status := "success", result := some result, output := some out,
                          input := some (inputSnapshot (buildSingleContext w nodeId)) }⟩, ?_, rfl⟩
    simp [updateFirst_find?, hfind]

/-- C2 (amended): when a node's agent invocation fails in full-run mode,
the loop state is not advanced by that node — the context and the
results array passed on to the next node equal those passed to the failed
node, and in particular the failed node adds no `previousResults` entry:
its agent kind is absent afterwards whenever it was absent before.  (As
stated, the claim's stronger "absent from the `previousResults` consumed
by subsequent nodes" fails when an earlier node of the same agent kind
succeeded; see the counterexample.) -/
theorem claim2_failed_invocation_preserves_context (σ : Store)
    (defs : List (String × String)) (exec : ExecOracle)
    (st : RunState) (i : Nat) (node : WNode) (msg : String)
    (hn : st.w.nodes.get? i = some node)
    (hex : exec node.data.agentType st.ctx = ExecOutcome.err msg) :
    (runNode σ defs exec st i).ctx = st.ctx ∧
    (runNode σ defs exec st i).results = st.results ∧
    (lookupKey st.ctx.previousResults node.data.agentType = none →
      lookupKey (runNode σ defs exec st i).ctx.previousResults node.data.agentType = none) := by
  rw [runNode_err σ defs exec st i node msg hn hex]
  exact ⟨rfl, rfl, fun h => h⟩

/-! ## Characterizing the single-node context reconstruction -/

/-- The agent kinds the reconstruction chain of route lines 35–47 projects
into a named slot.  `cinematic-teaser` is absent: the chain has no case
for it. -/
def recognizedKinds : List String :=
  ["story-intelligence", "knowledge-graph", "temporal-reasoning",
   "continuity-validator", "creative-coauthor", "intelligent-recall"]

/-- The named slot the reconstruction chain associates with an agent kind. -/
def slotGet (k : String) (c : Context) : Option JSVal :=
  if k = "story-intelligence" then c.storyContext
  else if k = "knowledge-graph" then c.knowledgeGraph
  else if k = "temporal-reasoning" then c.timeline
  else if k = "continuity-validator" then c.continuityReport
  else if k = "creative-coauthor" then c.suggestions
  else if k = "intelligent-recall" then c.memoryBank
  else none

/-- Truthiness of `n.data.result`, the loop's inclusion test. -/
def resultTruthy (n : WNode) : Bool :=
  match n.data.result with
  | some r => truthy r
  | none => false

theorem applyProjection_previousResults (c : Context) (k : String) (r : JSVal) :
    (applyProjection c k r).previousResults = c.previousResults := by
  unfold applyProjection; split_ifs <;> rfl

theorem applyProjection_storyBrief (c : Context) (k : String) (r : JSVal) :
    (applyProjection c k r).storyBrief = c.storyBrief := by
  unfold applyProjection; split_ifs <;> rfl

theorem applyProjection_manuscript (c : Context) (k : String) (r : JSVal) :
    (applyProjection c k r).manuscript = c.manuscript := by
  unfold applyProjection; split_ifs <;> rfl

theorem applyProjection_teaser (c : Context) (k : String) (r : JSVal) :
    (applyProjection c k r).teaserContent = c.teaserContent := by
  unfold applyProjection; split_ifs <;> rfl

theorem slotGet_update_prs (k : String) (c : Context) (l : List (String × JSVal)) :
    slotGet k { c with previousResults := l } = slotGet k c := by
  unfold slotGet; split_ifs <;> rfl

/-- Applying the projection for kind `k'` sets exactly the slot of `k'`
and no other recognized slot. -/
theorem slotGet_applyProjection (c : Context) (k' : String) (r : JSVal) (k : String)
    (hk : k ∈ recognizedKinds) :
    slotGet k (applyProjection c k' r) = if k = k' then some r else slotGet k c := by
  simp only [recognizedKinds, List.mem_cons, List.not_mem_nil, or_false] at hk
  by_cases hkk : k = k'
  · subst hkk
    rw [if_pos rfl]
    rcases hk with h | h | h | h | h | h <;> subst h <;> simp [applyProjection, slotGet]
  · rw [if_neg hkk]
    rcases hk with h | h | h | h | h | h <;> subst h <;>
      · unfold applyProjection
        split_ifs <;> simp_all [slotGet]

/-- One loop step either leaves the context alone or records the node's
result and applies the projection. -/
theorem collectStep_eq (nid : String) (c : Context) (n : WNode) :
    collectStep nid c n = c ∨
    ∃ r, n.data.result = some r ∧ (n.id != nid && truthy r) = true ∧ n.id ≠ nid ∧
      collectStep nid c n
        = applyProjection
            { c with previousResults := setKey c.previousResults n.data.agentType r }
            n.data.agentType r := by
  cases hr : n.data.result with
  | none => exact Or.inl (by unfold collectStep; rw [hr])
  | some r =>
    by_cases hb : (n.id != nid && truthy r) = true
    · refine Or.inr ⟨r, rfl, hb, bne_iff_ne.mp ((Bool.and_eq_true _ _).mp hb).1, ?_⟩
      unfold collectStep
      rw [hr]
      dsimp only
      rw [if_pos hb]
    · refine Or.inl ?_
      unfold collectStep
      rw [hr]
      dsimp only
      rw [if_neg hb]

theorem foldl_collectStep_base (nid : String) :
    ∀ (ns : List WNode) (c : Context),
    (ns.foldl (collectStep nid) c).storyBrief = c.storyBrief ∧
    (ns.foldl (collectStep nid) c).manuscript = c.manuscript := by
  intro ns
  induction ns with
  | nil => intro c; exact ⟨rfl, rfl⟩
  | cons n rest ih =>
    intro c
    have step : (collectStep nid c n).storyBrief = c.storyBrief ∧
        (collectStep nid c n).manuscript = c.manuscript := by
      rcases collectStep_eq nid c n with h | ⟨r, _, _, _, h⟩
      · rw [h]; exact ⟨rfl, rfl⟩
      · rw [h]; exact ⟨applyProjection_storyBrief _ _ _, applyProjection_manuscript _ _ _⟩
    obtain ⟨h1, h2⟩ := ih (collectStep nid c n)
    exact ⟨h1.trans step.1, h2.trans step.2⟩

theorem foldl_collectStep_teaser (nid : String) :
    ∀ (ns : List WNode) (c : Context),
    (ns.foldl (collectStep nid) c).teaserContent = c.teaserContent := by
  intro ns
  induction ns with
  | nil => intro c; rfl
  | cons n rest ih =>
    intro c
    have step : (collectStep nid c n).teaserContent = c.teaserContent := by
      rcases collectStep_eq nid c n with h | ⟨r, _, _, _, h⟩
      · rw [h]
      · rw [h]; exact applyProjection_teaser _ _ _
    exact (ih (collectStep nid c n)).trans step

/-- The coupling invariant: a recognized slot always equals the
`previousResults` entry of its kind. -/
theorem foldl_collectStep_slot (nid : String) (k : String) (hk : k ∈ recognizedKinds) :
    ∀ (ns : List WNode) (c : Context),
    slotGet k c = lookupKey c.previousResults k →
    slotGet k (ns.foldl (collectStep nid) c)
      = lookupKey (ns.foldl (collectStep nid) c).previousResults k := by
  intro ns
  induction ns with
  | nil => intro c h; exact h
  | cons n rest ih =>
    intro c h
    apply ih
    rcases collectStep_eq nid c n with heq | ⟨r, _, _, _, heq⟩
    · rw [heq]; exact h
    · rw [heq, slotGet_applyProjection _ _ _ _ hk, applyProjection_previousResults,
        lookupKey_setKey]
      by_cases hkk : k = n.data.agentType
      · simp [hkk]
      · simp [hkk, slotGet_update_prs, h]

/-- Every `previousResults` entry of the reconstructed context comes from
some node other than the target that carries a truthy result of that kind. -/
theorem foldl_collectStep_provenance (nid : String) :
    ∀ (ns : List WNode) (c : Context) (k : String) (v : JSVal),
    lookupKey (ns.foldl (collectStep nid) c).previousResults k = some v →
    lookupKey c.previousResults k = some v ∨
    ∃ n, n ∈ ns ∧ n.id ≠ nid ∧ n.data.agentType = k ∧
      n.data.result = some v ∧ truthy v = true := by
  intro ns
  induction ns with
  | nil => intro c k v h; exact Or.inl h
  | cons n rest ih =>
    intro c k v h
    rcases ih (collectStep nid c n) k v h with h0 | ⟨m, hm, hne, hk, hr, ht⟩
    · rcases collectStep_eq nid c n with heq | ⟨r, hr, hb, hne, heq⟩
      · rw [heq] at h0; exact Or.inl h0
      · rw [heq, applyProjection_previousResults, lookupKey_setKey] at h0
        by_cases hkk : k = n.data.agentType
        · rw [if_pos hkk] at h0
          refine Or.inr ⟨n, List.mem_cons_self n rest, hne, hkk.symm, ?_, ?_⟩
          · rw [hr]; exact congrArg some (Option.some.inj h0)
          · have := (Bool.and_eq_true _ _).mp hb
            rw [← Option.some.inj h0]; exact this.2
        · rw [if_neg hkk] at h0; exact Or.inl h0
    · exact Or.inr ⟨m, List.mem_cons_of_mem n hm, hne, hk, hr, ht⟩

/-- A key present in `previousResults` stays present along the fold. -/
theorem foldl_collectStep_mono (nid : String) :
    ∀ (ns : List WNode) (c : Context) (k : String),
    (lookupKey c.previousResults k).isSome →
    (lookupKey (ns.foldl (collectStep nid) c).previousResults k).isSome := by
  intro ns
  induction ns with
  | nil => intro c k h; exact h
  | cons n rest ih =>
    intro c k h
    apply ih
    rcases collectStep_eq nid c n with heq | ⟨r, _, _, _, heq⟩
    · rw [heq]; exact h
    · rw [heq, applyProjection_previousResults, lookupKey_setKey]
      by_cases hkk : k = n.data.agentType
      · simp [hkk]
      · simp [hkk]; simpa using h

/-- Every other node with a truthy result ends up keyed in
`previousResults`. -/
theorem foldl_collectStep_complete (nid : String) :
    ∀ (ns : List WNode) (c : Context) (n : WNode),
    n ∈ ns → n.id ≠ nid → resultTruthy n = true →
    (lookupKey (ns.foldl (collectStep nid) c).previousResults n.data.agentType).isSome := by
  intro ns
  induction ns with
  | nil => intro c n h; exact absurd h (List.not_mem_nil n)
  | cons m rest ih =>
    intro c n hmem hne ht
    rcases List.mem_cons.mp hmem with heq | hmem'
    · subst heq
      rw [List.foldl_cons]
      apply foldl_collectStep_mono
      obtain ⟨r, hr, htr⟩ : ∃ r, n.data.result = some r ∧ truthy r = true := by
        unfold resultTruthy at ht
        cases hr : n.data.result with
        | none => rw [hr] at ht; exact absurd ht (by simp)
        | some r => rw [hr] at ht; exact ⟨r, rfl, ht⟩
      have hb : (n.id != nid && truthy r) = true := by
        refine (Bool.and_eq_true _ _).mpr ⟨bne_iff_ne.mpr hne, htr⟩
      unfold collectStep
      rw [hr]
      dsimp only
      rw [if_pos hb, applyProjection_previousResults, lookupKey_setKey]
      simp
    · exact ih (collectStep nid c m) n hmem' hne ht

/-! ## Claims about the single-node context and the formatter -/

/-- C4: for a single-node run targeting node X, the context handed to the
agent boundary is built from the pipeline's brief and manuscript inputs
plus, for every node other than X that carries a (truthy) result —
regardless of its position relative to X in the stored order — that
node's result keyed by its agent kind in `previousResults` and projected
into its recognized named slot (the slot of a recognized kind always
equals its `previousResults` entry); X's own stored result is never
included: every entry originates from a node whose id differs from X. -/
theorem claim4_single_node_context (w : Workflow) (nodeId : String) :
    (buildSingleContext w nodeId).storyBrief = jsOrStr w.brief "" ∧
    (buildSingleContext w nodeId).manuscript = manuscriptOf w ∧
    (∀ n ∈ w.nodes, n.id ≠ nodeId → resultTruthy n = true →
      (lookupKey (buildSingleContext w nodeId).previousResults n.data.agentType).isSome = true) ∧
    (∀ k v, lookupKey (buildSingleContext w nodeId).previousResults k = some v →
      ∃ n, n ∈ w.nodes ∧ n.id ≠ nodeId ∧ n.data.agentType = k ∧
        n.data.result = some v ∧ truthy v = true) ∧
    (∀ k ∈ recognizedKinds,
      slotGet k (buildSingleContext w nodeId)
        = lookupKey (buildSingleContext w nodeId).previousResults k) := by
  refine ⟨?_, ?_, ?_, ?_, ?_⟩
  · exact (foldl_collectStep_base nodeId w.nodes (baseContext w)).1
  · exact (foldl_collectStep_base nodeId w.nodes (baseContext w)).2
  · intro n hn hne ht
    exact foldl_collectStep_complete nodeId w.nodes (baseContext w) n hn hne ht
  · intro k v h
    rcases foldl_collectStep_provenance nodeId w.nodes (baseContext w) k v h with h0 | h1
    · exact absurd h0 (by simp [baseContext, lookupKey])
    · exact h1
  · intro k hk
    refine foldl_collectStep_slot nodeId k hk w.nodes (baseContext w) ?_
    unfold slotGet
    split_ifs <;> rfl

/-- A node fixture: id, agent kind, stored result. -/
def mkNode (i k : String) (res : Option JSVal) : WNode :=
  ⟨i, { agentType := k, label := i, status := "pending", result := res,
        output := none, error := none, input := none }⟩

def c6Workflow : Workflow :=
  { brief := none, inputs := none,
    nodes := [mkNode "n0" "story-intelligence" none,
              mkNode "n1" "cinematic-teaser" (some (JSVal.bool true))],
    status := "idle", progress := none, analysisContext := none }

/-- C6 counterexample: the claim's recognized set includes
`cinematic-teaser` with slot `teaserContent`, but the reconstruction
chain of route lines 35–47 has no `cinematic-teaser` case: the other
node's result lands in `previousResults` while `teaserContent` — and
every other named slot — stays unpopulated. -/
theorem claim6_counterexample :
    lookupKey (buildSingleContext c6Workflow "n0").previousResults "cinematic-teaser"
      = some (JSVal.bool true) ∧
    (buildSingleContext c6Workflow "n0").teaserContent = none ∧
    (buildSingleContext c6Workflow "n0").storyContext = none ∧
    (buildSingleContext c6Workflow "n0").knowledgeGraph = none ∧
    (buildSingleContext c6Workflow "n0").timeline = none ∧
    (buildSingleContext c6Workflow "n0").continuityReport = none ∧
    (buildSingleContext c6Workflow "n0").suggestions = none ∧
    (buildSingleContext c6Workflow "n0").memoryBank = none :=
  ⟨rfl, rfl, rfl, rfl, rfl, rfl, rfl, rfl⟩

/-- C6 (amended): the projection of the single-node context
reconstruction is a fixed, closed mapping over six agent kinds —
`story-intelligence`, `knowledge-graph`, `temporal-reasoning`,
`continuity-validator`, `creative-coauthor`, `intelligent-recall` — whose
slot always equals the kind's `previousResults` entry and is therefore
populated whenever another node of that kind carries a truthy result;
`teaserContent` is never populated by this projection, and a result of
any other kind (including `cinematic-teaser`) is recorded only under
`previousResults` and sets no named slot. -/
theorem claim6_amended_projection_closed (w : Workflow) (nodeId : String) :
    (buildSingleContext w nodeId).teaserContent = none ∧
    (∀ k ∈ recognizedKinds,
      slotGet k (buildSingleContext w nodeId)
        = lookupKey (buildSingleContext w nodeId).previousResults k) ∧
    (∀ n ∈ w.nodes, n.id ≠ nodeId → resultTruthy n = true →
      n.data.agentType ∈ recognizedKinds →
      (slotGet n.data.agentType (buildSingleContext w nodeId)).isSome = true) := by
  have hslot : ∀ k ∈ recognizedKinds,
      slotGet k (buildSingleContext w nodeId)
        = lookupKey (buildSingleContext w nodeId).previousResults k := by
    intro k hk
    refine foldl_collectStep_slot nodeId k hk w.nodes (baseContext w) ?_
    unfold slotGet
    split_ifs <;> rfl
  refine ⟨?_, hslot, ?_⟩
  · exact foldl_collectStep_teaser nodeId w.nodes (baseContext w)
  · intro n hn hne ht hk
    rw [hslot n.data.agentType hk]
    exact foldl_collectStep_complete nodeId w.nodes (baseContext w) n hn hne ht

def c2Workflow : Workflow :=
  { brief := some "b", inputs := none,
    nodes := [mkNode "a" "knowledge-graph" none, mkNode "b" "knowledge-graph" none,
              mkNode "c" "custom-kind" none],
    status := "idle", progress := none, analysisContext := none }

def c2Exec : ExecOracle := fun _ c =>
  if c.previousResults.isEmpty then ExecOutcome.ok (JSVal.bool true)
  else ExecOutcome.err "boom"

/-- C2 counterexample: node `b` (kind `knowledge-graph`) fails its
invocation, yet the subsequent node `c` consumes a `previousResults`
containing `knowledge-graph` — contributed by the earlier successful node
`a` of the same kind — as witnessed by the captured input snapshots.  So
"the failed node's agent kind is absent from the `previousResults`
consumed by subsequent nodes" is false as stated. -/
theorem claim2_counterexample :
    ((fullRun [] [] c2Exec c2Workflow).workflow.nodes.map fun n => (n.id, n.data.status))
      = [("a", "success"), ("b", "error"), ("c", "error")] ∧
    ((fullRun [] [] c2Exec c2Workflow).workflow.nodes.map fun n => n.data.agentType)
      = ["knowledge-graph", "knowledge-graph", "custom-kind"] ∧
    ((fullRun [] [] c2Exec c2Workflow).workflow.nodes.map fun n =>
        n.data.input.map InputSnapshot.previousAgents)
      = [some [], some ["knowledge-graph"], some ["knowledge-graph"]] :=
  ⟨rfl, rfl, rfl⟩

def c3Store : Store := [HObj.obj [("self", JSVal.ref 0)]]

/-- C3 (code bug): `formatAgentOutput` is not total.  For an unrecognized
agent kind and a self-referential result (`o = \x7b\x7d; o.self = o`), the
`default` branch's `JSON.stringify(result, null, 2)` throws the
circular-structure TypeError, and the `catch` block re-runs the same
`JSON.stringify` on the same value, which throws again — the exception
escapes `formatAgentOutput`, contradicting "never throws". -/
theorem claim3_formatter_throws_on_circular :
    formatAgentOutput c3Store "mystery-agent" (JSVal.ref 0)
      = Except.error "TypeError: Converting circular structure to JSON" ∧
    jsFallback c3Store (JSVal.ref 0)
      = Except.error "TypeError: Converting circular structure to JSON" :=
  ⟨rfl, rfl⟩

/-! ## Remaining full-run claims -/

/-- C10: a full run on a pipeline with no nodes is not rejected: the loop
body never runs, progress is reset to
`{currentNode: undefined, completedNodes: [], totalNodes: 0, errors: []}`,
the final status is `"error"` (zero nodes completed), and the response has
`success = false` and an empty results list. -/
theorem claim10_empty_pipeline (σ : Store) (defs : List (String × String))
    (exec : ExecOracle) (w : Workflow) (h : w.nodes = []) :
    (fullRun σ defs exec w).workflow.progress
      = some { currentNode := none, completedNodes := [], totalNodes := 0, errors := [] } ∧
    (fullRun σ defs exec w).workflow.status = "error" ∧
    (fullRun σ defs exec w).success = false ∧
    (fullRun σ defs exec w).results = [] := by
  simp only [fullRun, fullRunState, initialState, initProgress, h]
  simp [runNodes]

/-- C8 (amended): `generateExecutionSummary` is a total function of the
results list and the final context; its `agentsExecuted` field equals the
length of the per-node results list — the nodes whose agent invocation
returned a result, not the count of nodes attempted — and
`successfulAgents` counts those entries whose result value lacks a truthy
`error` field.  Over any full run the results list covers at least the
successfully completed nodes and at most the node count. -/
theorem claim8_summary_counts (σ : Store) (defs : List (String × String))
    (exec : ExecOracle) (w : Workflow) :
    (fullRun σ defs exec w).summary.agentsExecuted = (fullRun σ defs exec w).results.length ∧
    (fullRun σ defs exec w).summary.successfulAgents
      = ((fullRun σ defs exec w).results.filter fun r => ! resultHasError σ r.result).length ∧
    (fullRun σ defs exec w).results.length ≤ w.nodes.length ∧
    (∃ p, (fullRun σ defs exec w).workflow.progress = some p ∧
      p.completedNodes.length ≤ (fullRun σ defs exec w).results.length) := by
  obtain ⟨p', hp', htot, hsum, hresLe, hcompLe⟩ := fullRunState_inv σ defs exec w
  refine ⟨rfl, rfl, hresLe, ⟨{ p' with currentNode := none }, ?_, ?_⟩⟩
  · simp only [fullRun]
    simp [hp']
  · simpa using hcompLe

def c8Workflow : Workflow :=
  { brief := none, inputs := none, nodes := [mkNode "a" "any-kind" none],
    status := "idle", progress := none, analysisContext := none }

def failExec : ExecOracle := fun _ _ => ExecOutcome.err "boom"

/-- C8 counterexample: a full run that attempts its single node (the node
ends in status `"error"`) reports `agentsExecuted = 0`, not the attempted
count 1 — `results` receives an entry only when the invocation succeeds. -/
theorem claim8_counterexample :
    c8Workflow.nodes.length = 1 ∧
    ((fullRun [] [] failExec c8Workflow).workflow.nodes.map fun n => n.data.status)
      = ["error"] ∧
    (fullRun [] [] failExec c8Workflow).summary.agentsExecuted = 0 :=
  ⟨rfl, rfl, rfl⟩

/-! ## Witnesses: the theorems instantiated at concrete runs -/

def witWorkflow : Workflow :=
  { brief := some "brief", inputs := none, nodes := [mkNode "a" "any-kind" none],
    status := "idle", progress := none, analysisContext := none }

def emptyWorkflow : Workflow :=
  { brief := none, inputs := none, nodes := [], status := "idle",
    progress := none, analysisContext := none }

def okExec : ExecOracle := fun _ _ => ExecOutcome.ok (JSVal.str "r")

theorem claim1_witness :
    1 ≤ witWorkflow.nodes.length ∧
    (∃ p, (fullRun [] [] failExec witWorkflow).workflow.progress = some p ∧
      p.completedNodes.length + p.errors.length = witWorkflow.nodes.length ∧
      ((fullRun [] [] failExec witWorkflow).workflow.status = "error"
        ↔ p.completedNodes.length = 0) ∧
      ((fullRun [] [] failExec witWorkflow).workflow.status = "partial"
        ↔ (p.completedNodes.length ≠ 0 ∧ p.errors.length ≠ 0)) ∧
      ((fullRun [] [] failExec witWorkflow).workflow.status = "completed"
        ↔ (p.completedNodes.length ≠ 0 ∧ p.errors.length = 0))) :=
  ⟨by decide, claim1_full_run_partition_and_status [] [] failExec witWorkflow (by decide)⟩

theorem claim2_witness :
    (runNode [] [] failExec (initialState witWorkflow) 0).ctx
      = (initialState witWorkflow).ctx ∧
    (runNode [] [] failExec (initialState witWorkflow) 0).results
      = (initialState witWorkflow).results ∧
    (lookupKey (initialState witWorkflow).ctx.previousResults
        (mkNode "a" "any-kind" none).data.agentType = none →
      lookupKey (runNode [] [] failExec (initialState witWorkflow) 0).ctx.previousResults
        (mkNode "a" "any-kind" none).data.agentType = none) :=
  claim2_failed_invocation_preserves_context [] [] failExec (initialState witWorkflow) 0
    (mkNode "a" "any-kind" none) "boom" rfl rfl

theorem claim4_witness :
    (buildSingleContext witWorkflow "a").storyBrief = jsOrStr witWorkflow.brief "" ∧
    (buildSingleContext witWorkflow "a").manuscript = manuscriptOf witWorkflow ∧
    (∀ n ∈ witWorkflow.nodes, n.id ≠ "a" → resultTruthy n = true →
      (lookupKey (buildSingleContext witWorkflow "a").previousResults
        n.data.agentType).isSome = true) ∧
    (∀ k v, lookupKey (buildSingleContext witWorkflow "a").previousResults k = some v →
      ∃ n, n ∈ witWorkflow.nodes ∧ n.id ≠ "a" ∧ n.data.agentType = k ∧
        n.data.result = some v ∧ truthy v = true) ∧
    (∀ k ∈ recognizedKinds,
      slotGet k (buildSingleContext witWorkflow "a")
        = lookupKey (buildSingleContext witWorkflow "a").previousResults k) :=
  claim4_single_node_context witWorkflow "a"

theorem claim6_amended_witness :
    (buildSingleContext witWorkflow "a").teaserContent = none ∧
    (∀ k ∈ recognizedKinds,
      slotGet k (buildSingleContext witWorkflow "a")
        = lookupKey (buildSingleContext witWorkflow "a").previousResults k) ∧
    (∀ n ∈ witWorkflow.nodes, n.id ≠ "a" → resultTruthy n = true →
      n.data.agentType ∈ recognizedKinds →
      (slotGet n.data.agentType (buildSingleContext witWorkflow "a")).isSome = true) :=
  claim6_amended_projection_closed witWorkflow "a"

theorem claim7_witness :
    (runNode [] [] failExec (initialState witWorkflow) 0).w.nodes.get? 0
      = some ⟨(mkNode "a" "any-kind" none).id,
              { (mkNode "a" "any-kind" none).data with
                  status := "error", error := some "boom",
                  input := some (inputSnapshot (initialState witWorkflow).ctx) }⟩ ∧
    ((executeSingleAgent [] failExec witWorkflow "a" none).1.nodes.find?
        (fun n => n.id == "a")
      = some ⟨(mkNode "a" "any-kind" none).id,
              { (mkNode "a" "any-kind" none).data with
                  status := "error", error := some "boom" }⟩ ∧
      (executeSingleAgent [] failExec witWorkflow "a" none).2 = SingleResp.failure "boom") :=
  ⟨claim7_error_transition.1 [] [] failExec (initialState witWorkflow) 0
    (mkNode "a" "any-kind" none) "boom" rfl rfl,
   claim7_error_transition.2 [] failExec witWorkflow "a" none
    (mkNode "a" "any-kind" none) "boom" rfl rfl⟩

theorem claim9_witness :
    ((inputSnapshot (baseContext witWorkflow)).storyBrief
        = (baseContext witWorkflow).storyBrief.take 500 ++ "..." ∧
      ((baseContext witWorkflow).storyBrief.take 500).length ≤ 500 ∧
      (inputSnapshot (baseContext witWorkflow)).hasManuscript
        = ((baseContext witWorkflow).manuscript != "") ∧
      (inputSnapshot (baseContext witWorkflow)).previousAgents
        = (baseContext witWorkflow).previousResults.map Prod.fst) ∧
    (∃ node', (runNode [] [] failExec (initialState witWorkflow) 0).w.nodes.get? 0
        = some node' ∧
      node'.data.input = some (inputSnapshot (initialState witWorkflow).ctx)) ∧
    (∃ node', (executeSingleAgent [] okExec witWorkflow "a" none).1.nodes.find?
        (fun n => n.id == "a") = some node' ∧
      node'.data.input = some (inputSnapshot (buildSingleContext witWorkflow "a"))) :=
  ⟨claim9_running_snapshot.1 (baseContext witWorkflow),
   claim9_running_snapshot.2.1 [] [] failExec (initialState witWorkflow) 0
    (mkNode "a" "any-kind" none) rfl,
   claim9_running_snapshot.2.2 [] okExec witWorkflow "a" none
    (mkNode "a" "any-kind" none) (JSVal.str "r") (JSVal.str "r") rfl rfl rfl⟩

theorem claim10_witness :
    emptyWorkflow.nodes = [] ∧
    ((fullRun [] [] failExec emptyWorkflow).workflow.progress
        = some { currentNode := none, completedNodes := [], totalNodes := 0, errors := [] } ∧
      (fullRun [] [] failExec emptyWorkflow).workflow.status = "error" ∧
      (fullRun [] [] failExec emptyWorkflow).success = false ∧
      (fullRun [] [] failExec emptyWorkflow).results = []) :=
  ⟨rfl, claim10_empty_pipeline [] [] failExec emptyWorkflow rfl⟩

end SF
